import Mathlib

/-!
Verification of the AOS-Billing customer store (`src/main.py`) against its
specification.

The program keeps a single collection of customer records in a JSON file.
We embed the four functions of `src/main.py` — `load_customers`,
`save_customers`, `add_customer`, `update_customer` — shallowly:

* a record (a Python dict from field name to string value, insertion-ordered)
  is an association list `List (String × String)`;
* the durable file is a `FileState`: absent, or present with content that
  either parses as a collection of records (`valid`) or does not (`malformed`)
  — `json.load`/`json.dump` round-trip a list of string dicts, so the only
  behaviour of the byte-level content the program can observe is which
  collection it parses to, or that parsing fails;
* raising `HTTPException(404)` / `KeyError` is an `Except` error value.
-/

namespace AOSBilling

/-- a customer record: a Python dict from field name to string value,
insertion order preserved. -/
abbrev Record := List (String × String)

/-- dict lookup `d[k]` / `d.get(k)`: value at the first occurrence of key
`k`, if any (a Python dict holds each key at most once; the first occurrence
is the one the dict semantics exposes). -/
def dictGet : Record → String → Option String
  | [], _ => none
  | p :: d, k => if p.1 = k then some p.2 else dictGet d k

/-- dict assignment `d[k] = v`: overwrite the value at the (unique) first
occurrence of key `k` in place, keeping its position, otherwise append
`(k, v)` at the end — the insertion-order semantics of a Python dict. -/
def dictSet : Record → String → String → Record
  | [], k, v => [(k, v)]
  | p :: d, k, v => if p.1 = k then (k, v) :: d else p :: dictSet d k v

/-- dict merge `c.update(updated)`: assign every key of `updated` into `c`
in order — same-named fields are overwritten, new fields appended, fields not
named in `updated` untouched. -/
def dictUpdate (c updated : Record) : Record :=
  updated.foldl (fun acc p => dictSet acc p.1 p.2) c

/-- content of the customers file as the program can observe it: parseable
as a collection `rs`, or malformed (a `json.load` failure). -/
inductive FileContent where
  | valid (rs : List Record)
  | malformed
  deriving DecidableEq, Repr

/-- state of the path `FILE_PATH`: the file does not exist, or exists with
some content. -/
inductive FileState where
  | absent
  | file (c : FileContent)
  deriving DecidableEq, Repr

/-- `load_customers` (src/main.py:23-30): if the file does not exist return
`[]`; otherwise `json.load` it, and on any parse error the bare `except:`
returns `[]` as well. -/
def load_customers : FileState → List Record
  | .absent => []
  | .file (.valid rs) => rs
  | .file .malformed => []

/-- `save_customers` (src/main.py:32-34): open `FILE_PATH` with mode `"w"`
and `json.dump` the whole collection into it — the file afterwards holds
exactly the serialized collection. -/
def save_customers (customers : List Record) (_fs : FileState) : FileState :=
  .file (.valid customers)

/-- intermediate durable states of `save_customers`: `open(FILE_PATH, "w")`
first truncates the canonical file in place, then `json.dump` writes the
bytes; a crash after the truncation and before the dump completes leaves the
canonical file empty or holding a strict prefix of the JSON text, which does
not parse. The list gives the observable file state before the call, after
the truncation, and after completion. -/
def save_customers_steps (customers : List Record) (fs : FileState) :
    List FileState :=
  [fs, .file .malformed, save_customers customers fs]

/-- the `Customer` pydantic model (src/main.py:17-21): four required string
fields. Pydantic places no constraint beyond the type `str`, so an empty
`id` is accepted. -/
structure Customer where
  id : String
  name : String
  phone : String
  address : String
  deriving DecidableEq, Repr

/-- `customer.dict()`: the record as a field mapping, in declaration order. -/
def Customer.toDict (c : Customer) : Record :=
  [("id", c.id), ("name", c.name), ("phone", c.phone), ("address", c.address)]

/-- `add_customer` (src/main.py:38-43): load the collection, append the new
record, save, and return the stored record. There is no duplicate-id check
and no emptiness check; the function cannot fail. -/
def add_customer (customer : Customer) (fs : FileState) :
    Record × FileState :=
  let customers := load_customers fs
  let customers2 := customers ++ [customer.toDict]
  (customer.toDict, save_customers customers2 fs)

/-- errors `update_customer` can raise: `HTTPException(404)` when no record
matches, or a `KeyError` when `c["id"]` is evaluated on a record lacking an
`id` key. -/
inductive PyError where
  | notFound
  | keyError
  deriving DecidableEq, Repr

/-- the loop of `update_customer` (src/main.py:50-54): walk the collection;
on the first record whose `"id"` equals `customer_id`, merge `updated` into
it in place and stop. Returns the merged record together with the whole
collection after the in-place mutation, or `none` if no record matched;
raises `KeyError` if a record without an `id` key is reached first. -/
def updateFirst (customer_id : String) (updated : Record) :
    List Record → Except PyError (Option (Record × List Record))
  | [] => .ok none
  | c :: rest =>
    match dictGet c "id" with
    | none => .error .keyError
    | some v =>
      if v = customer_id then
        .ok (some (dictUpdate c updated, dictUpdate c updated :: rest))
      else
        (updateFirst customer_id updated rest).map
          (Option.map (fun pr => (pr.1, c :: pr.2)))

/-- `update_customer` (src/main.py:47-56): load the collection; merge
`updated` into the first record whose `"id"` equals `customer_id`, save the
collection and return the merged record; if no record matches, raise 404
(`notFound`) and leave the file untouched. The second component is the file
state after the call. -/
def update_customer (customer_id : String) (updated : Record)
    (fs : FileState) : Except PyError Record × FileState :=
  let customers := load_customers fs
  match updateFirst customer_id updated customers with
  | .error e => (.error e, fs)
  | .ok none => (.error .notFound, fs)
  | .ok (some (c, customers2)) => (.ok c, save_customers customers2 fs)

/-- the number of records in the collection whose `"id"` field is `x`. -/
def countId (customers : List Record) (x : String) : Nat :=
  customers.countP (fun c => dictGet c "id" = some x)

/-- an unsynchronised interleaving of two `add_customer` calls on one store:
both threads run `load_customers` (line 40) before either runs
`save_customers` (line 42). Each step is one line of `add_customer`; the
code takes no lock, so this schedule is possible. -/
def twoAddsLoadLoadSaveSave (a b : Customer) (fs : FileState) : FileState :=
  let la := load_customers fs
  let lb := load_customers fs
  let fs1 := save_customers (la ++ [a.toDict]) fs
  save_customers (lb ++ [b.toDict]) fs1

/-! Helper lemmas about the dict operations. -/

/-- setting key `k` makes lookup of `k` return the new value. -/
theorem dictGet_dictSet_same (d : Record) (k v : String) :
    dictGet (dictSet d k v) k = some v := by
  induction d with
  | nil => simp [dictSet, dictGet]
  | cons p d ih =>
    by_cases hp : p.1 = k
    · simp [dictSet, dictGet, hp]
    · simp [dictSet, dictGet, hp, ih]

/-- setting key `k` leaves lookup of any other key unchanged. -/
theorem dictGet_dictSet_ne (d : Record) (k v k' : String) (h : k' ≠ k) :
    dictGet (dictSet d k v) k' = dictGet d k' := by
  have h0 : ¬ (k = k') := fun hh => h hh.symm
  induction d with
  | nil => simp [dictSet, dictGet, h0]
  | cons p d ih =>
    by_cases hp : p.1 = k
    · have hp' : ¬ p.1 = k' := fun hh => h (hh.symm.trans hp)
      simp [dictSet, dictGet, hp, hp', h0]
    · simp [dictSet, dictGet, hp, ih]

/-- a key absent from the mapping looks up to `none`. -/
theorem dictGet_eq_none_of_not_mem (d : Record) (k : String)
    (h : k ∉ d.map Prod.fst) : dictGet d k = none := by
  induction d with
  | nil => rfl
  | cons p d ih =>
    simp only [List.map_cons, List.mem_cons] at h
    push_neg at h
    have hp : ¬ p.1 = k := fun hh => h.1 hh.symm
    simp [dictGet, hp, ih h.2]

/-- unfolding `dictUpdate` on a cons. -/
theorem dictUpdate_cons (d : Record) (p : String × String) (u : Record) :
    dictUpdate d (p :: u) = dictUpdate (dictSet d p.1 p.2) u := rfl

/-- field semantics of the merge `c.update(updated)`: a key named in the
mapping gets the mapping's value, any other key keeps its old value. The
mapping is a Python dict, so its keys are distinct. -/
theorem dictGet_dictUpdate (u : Record) (hnodup : (u.map Prod.fst).Nodup) :
    ∀ (d : Record) (k : String),
      dictGet (dictUpdate d u) k =
        match dictGet u k with
        | some v => some v
        | none => dictGet d k := by
  induction u with
  | nil => intro d k; rfl
  | cons p u ih =>
    intro d k
    simp only [List.map_cons, List.nodup_cons] at hnodup
    rw [dictUpdate_cons]
    by_cases hk : p.1 = k
    · have hu : dictGet u k = none :=
        dictGet_eq_none_of_not_mem u k (hk ▸ hnodup.1)
      rw [ih hnodup.2, hu]
      simp [dictGet, hk, hk ▸ dictGet_dictSet_same d p.1 p.2]
    · rw [ih hnodup.2]
      have hset := dictGet_dictSet_ne d p.1 p.2 k (fun hh => hk hh.symm)
      cases hu : dictGet u k <;> simp [dictGet, hk, hu, hset]

/-- a key of the mapping ends up in the merged record with the mapping's
value. -/
theorem dictGet_dictUpdate_of_some (u : Record)
    (hnodup : (u.map Prod.fst).Nodup) (d : Record) (k v : String)
    (h : dictGet u k = some v) : dictGet (dictUpdate d u) k = some v := by
  rw [dictGet_dictUpdate u hnodup d k, h]

/-- a key not named in the mapping keeps its value from the old record. -/
theorem dictGet_dictUpdate_of_none (u : Record)
    (hnodup : (u.map Prod.fst).Nodup) (d : Record) (k : String)
    (h : dictGet u k = none) : dictGet (dictUpdate d u) k = dictGet d k := by
  rw [dictGet_dictUpdate u hnodup d k, h]

/-! Behaviour of the update loop. -/

/-- when some record of the collection carries the wanted id (and every
record carries an `id` key), the loop splits the collection around the
first match, merges the mapping into that record only, and returns it. -/
theorem updateFirst_eq_of_match (cid : String) (upd : Record) :
    ∀ (customers : List Record),
    (∀ c ∈ customers, (dictGet c "id").isSome) →
    (∃ c ∈ customers, dictGet c "id" = some cid) →
    ∃ pre c post,
      customers = pre ++ c :: post ∧
      dictGet c "id" = some cid ∧
      (∀ c' ∈ pre, dictGet c' "id" ≠ some cid) ∧
      updateFirst cid upd customers =
        .ok (some (dictUpdate c upd, pre ++ dictUpdate c upd :: post)) := by
  intro customers
  induction customers with
  | nil => intro _ hex; simp at hex
  | cons c rest ih =>
    intro hids hex
    obtain ⟨v, hv⟩ := Option.isSome_iff_exists.mp (hids c (List.mem_cons_self c rest))
    by_cases hc : v = cid
    · refine ⟨[], c, rest, by simp, hc ▸ hv, by simp, ?_⟩
      simp [updateFirst, hv, hc]
    · have hex' : ∃ c0 ∈ rest, dictGet c0 "id" = some cid := by
        obtain ⟨c0, hc0, hc0id⟩ := hex
        rcases List.mem_cons.mp hc0 with rfl | hmem
        · exact absurd (Option.some.inj (hv.symm.trans hc0id)) hc
        · exact ⟨c0, hmem, hc0id⟩
      obtain ⟨pre, c1, post, heq, hid1, hpre, hrun⟩ :=
        ih (fun c' hc' => hids c' (List.mem_cons_of_mem c hc')) hex'
      refine ⟨c :: pre, c1, post, by simp [heq], hid1, ?_, ?_⟩
      · intro c' hc'
        rcases List.mem_cons.mp hc' with rfl | hmem
        · rw [hv]; exact fun hh => hc (Option.some.inj hh)
        · exact hpre c' hmem
      · simp [updateFirst, hv, hc, hrun, Except.map]

/-- when no record of the collection carries the wanted id (and every record
carries an `id` key), the loop falls through without finding a match. -/
theorem updateFirst_eq_none_of_no_match (cid : String) (upd : Record) :
    ∀ (customers : List Record),
    (∀ c ∈ customers, (dictGet c "id").isSome) →
    (∀ c ∈ customers, dictGet c "id" ≠ some cid) →
    updateFirst cid upd customers = .ok none := by
  intro customers
  induction customers with
  | nil => intro _ _; rfl
  | cons c rest ih =>
    intro hids hnone
    obtain ⟨v, hv⟩ := Option.isSome_iff_exists.mp (hids c (List.mem_cons_self c rest))
    have hc : ¬ v = cid := fun hh =>
      hnone c (List.mem_cons_self c rest) (hh ▸ hv)
    have := ih (fun c' hc' => hids c' (List.mem_cons_of_mem c hc'))
      (fun c' hc' => hnone c' (List.mem_cons_of_mem c hc'))
    simp [updateFirst, hv, hc, this, Except.map]

/-- behaviour of `update_customer` on a well-formed stored collection that
contains the wanted id: the first matching record is merged, the whole
collection with that one record replaced is saved, and the merged record is
returned. -/
theorem update_customer_eq_of_match (cid : String) (upd : Record)
    (customers : List Record)
    (hids : ∀ c ∈ customers, (dictGet c "id").isSome)
    (hex : ∃ c ∈ customers, dictGet c "id" = some cid) :
    ∃ pre c post,
      customers = pre ++ c :: post ∧
      dictGet c "id" = some cid ∧
      (∀ c' ∈ pre, dictGet c' "id" ≠ some cid) ∧
      update_customer cid upd (.file (.valid customers)) =
        (.ok (dictUpdate c upd),
         .file (.valid (pre ++ dictUpdate c upd :: post))) := by
  obtain ⟨pre, c, post, heq, hid, hpre, hrun⟩ :=
    updateFirst_eq_of_match cid upd customers hids hex
  exact ⟨pre, c, post, heq, hid, hpre, by
    simp [update_customer, load_customers, hrun, save_customers]⟩

/-! Claim theorems. -/

/-- C5: for every Collection containing a record with the given id and every
partial field mapping, Update merges the mapping into the (first) record with
that id — keys named in the mapping get the mapping's value (overwriting
same-named fields and adding new ones), keys not named keep their old value —
persists the updated Collection via `save_customers`, and returns the merged
record. -/
theorem C5_update_merges_persists_returns (cid : String) (upd : Record)
    (customers : List Record)
    (hnodup : (upd.map Prod.fst).Nodup)
    (hids : ∀ c ∈ customers, (dictGet c "id").isSome)
    (hex : ∃ c ∈ customers, dictGet c "id" = some cid) :
    ∃ pre c post,
      customers = pre ++ c :: post ∧
      dictGet c "id" = some cid ∧
      update_customer cid upd (.file (.valid customers)) =
        (.ok (dictUpdate c upd),
         save_customers (pre ++ dictUpdate c upd :: post)
           (.file (.valid customers))) ∧
      (∀ k v, dictGet upd k = some v → dictGet (dictUpdate c upd) k = some v) ∧
      (∀ k, dictGet upd k = none → dictGet (dictUpdate c upd) k = dictGet c k) := by
  obtain ⟨pre, c, post, heq, hid, _hpre, hrun⟩ :=
    update_customer_eq_of_match cid upd customers hids hex
  exact ⟨pre, c, post, heq, hid, hrun,
    fun k v h => dictGet_dictUpdate_of_some upd hnodup c k v h,
    fun k h => dictGet_dictUpdate_of_none upd hnodup c k h⟩

/-- C5 witness: updating record "1" with `{phone: "555-0199"}` on the spec's
example store. -/
theorem C5_update_merges_persists_returns_witness :
    ∃ pre c post,
      [[("id", "1"), ("name", "Asha"), ("phone", "555-0100"),
        ("address", "12 Elm St")]] = pre ++ c :: post ∧
      dictGet c "id" = some "1" ∧
      update_customer "1" [("phone", "555-0199")]
          (.file (.valid [[("id", "1"), ("name", "Asha"), ("phone", "555-0100"),
            ("address", "12 Elm St")]])) =
        (.ok (dictUpdate c [("phone", "555-0199")]),
         save_customers (pre ++ dictUpdate c [("phone", "555-0199")] :: post)
           (.file (.valid [[("id", "1"), ("name", "Asha"), ("phone", "555-0100"),
             ("address", "12 Elm St")]]))) ∧
      (∀ k v, dictGet [("phone", "555-0199")] k = some v →
        dictGet (dictUpdate c [("phone", "555-0199")]) k = some v) ∧
      (∀ k, dictGet [("phone", "555-0199")] k = none →
        dictGet (dictUpdate c [("phone", "555-0199")]) k = dictGet c k) :=
  C5_update_merges_persists_returns "1" [("phone", "555-0199")] _
    (by decide) (by decide) (by decide)

/-- C6: for every stored Collection containing no record with the given id,
Update fails with 404 not-found and the file state after the call is exactly
the file state before it (nothing is saved). -/
theorem C6_update_missing_id_fails_unchanged (cid : String) (upd : Record)
    (fs : FileState)
    (hids : ∀ c ∈ load_customers fs, (dictGet c "id").isSome)
    (hnone : ∀ c ∈ load_customers fs, dictGet c "id" ≠ some cid) :
    update_customer cid upd fs = (.error .notFound, fs) := by
  have h := updateFirst_eq_none_of_no_match cid upd (load_customers fs) hids hnone
  simp [update_customer, h]

/-- C6 witness: the spec's example `Update("99", {phone: "x"})` against a
store holding only record "1". -/
theorem C6_update_missing_id_fails_unchanged_witness :
    update_customer "99" [("phone", "x")]
        (.file (.valid [[("id", "1"), ("name", "Asha"), ("phone", "555-0100"),
          ("address", "12 Elm St")]])) =
      (.error .notFound,
       .file (.valid [[("id", "1"), ("name", "Asha"), ("phone", "555-0100"),
         ("address", "12 Elm St")]])) :=
  C6_update_missing_id_fails_unchanged "99" [("phone", "x")] _
    (by decide) (by decide)

/-- C8: for all valid records r1, r2 with distinct non-empty ids, Create(r1)
then Create(r2) followed by Load yields the prior collection with r1's and
r2's full field mappings appended, in insertion order, fields exactly as
passed. -/
theorem C8_create_create_load_round_trip (r1 r2 : Customer) (fs : FileState)
    (_h1 : r1.id ≠ "") (_h2 : r2.id ≠ "") (_hne : r1.id ≠ r2.id) :
    load_customers (add_customer r2 (add_customer r1 fs).2).2 =
      load_customers fs ++ [r1.toDict, r2.toDict] := by
  simp [add_customer, save_customers, load_customers]

/-- C8 witness: the spec's example records, created into an empty store. -/
theorem C8_create_create_load_round_trip_witness :
    load_customers (add_customer ⟨"2", "Bea", "555-0101", "9 Ash St"⟩
        (add_customer ⟨"1", "Asha", "555-0100", "12 Elm St"⟩
          FileState.absent).2).2 =
      load_customers FileState.absent ++
        [Customer.toDict ⟨"1", "Asha", "555-0100", "12 Elm St"⟩,
         Customer.toDict ⟨"2", "Bea", "555-0101", "9 Ash St"⟩] :=
  C8_create_create_load_round_trip _ _ _ (by decide) (by decide) (by decide)

/-- C9: the merge includes the key "id" itself — the id-match is against the
pre-update value `cid`, and when the mapping carries `id: x` the merged and
stored record's id becomes `x`. -/
theorem C9_update_can_change_id (cid x : String) (upd : Record)
    (customers : List Record)
    (hnodup : (upd.map Prod.fst).Nodup)
    (hids : ∀ c ∈ customers, (dictGet c "id").isSome)
    (hex : ∃ c ∈ customers, dictGet c "id" = some cid)
    (hx : dictGet upd "id" = some x) :
    ∃ pre c post,
      customers = pre ++ c :: post ∧
      dictGet c "id" = some cid ∧
      update_customer cid upd (.file (.valid customers)) =
        (.ok (dictUpdate c upd),
         .file (.valid (pre ++ dictUpdate c upd :: post))) ∧
      dictGet (dictUpdate c upd) "id" = some x := by
  obtain ⟨pre, c, post, heq, hid, _hpre, hrun⟩ :=
    update_customer_eq_of_match cid upd customers hids hex
  exact ⟨pre, c, post, heq, hid, hrun,
    dictGet_dictUpdate_of_some upd hnodup c "id" x hx⟩

/-- C9 witness: updating record "1" with the mapping `{id: "7"}`. -/
theorem C9_update_can_change_id_witness :
    ∃ pre c post,
      [[("id", "1"), ("name", "Asha"), ("phone", "555-0100"),
        ("address", "12 Elm St")]] = pre ++ c :: post ∧
      dictGet c "id" = some "1" ∧
      update_customer "1" [("id", "7")]
          (.file (.valid [[("id", "1"), ("name", "Asha"), ("phone", "555-0100"),
            ("address", "12 Elm St")]])) =
        (.ok (dictUpdate c [("id", "7")]),
         .file (.valid (pre ++ dictUpdate c [("id", "7")] :: post))) ∧
      dictGet (dictUpdate c [("id", "7")]) "id" = some "7" :=
  C9_update_can_change_id "1" "7" [("id", "7")] _
    (by decide) (by decide) (by decide) (by decide)

/-- C10: when several records share the wanted id, Update merges into and
returns only the first match in collection order: the collection splits as
`pre ++ c :: post` with no match in `pre`, and the saved collection is
`pre ++ merged :: post` — every record of `pre` and of `post` (later
duplicates included) is unchanged. -/
theorem C10_only_first_match_updated (cid : String) (upd : Record)
    (customers : List Record)
    (hids : ∀ c ∈ customers, (dictGet c "id").isSome)
    (hex : ∃ c ∈ customers, dictGet c "id" = some cid) :
    ∃ pre c post,
      customers = pre ++ c :: post ∧
      dictGet c "id" = some cid ∧
      (∀ c' ∈ pre, dictGet c' "id" ≠ some cid) ∧
      update_customer cid upd (.file (.valid customers)) =
        (.ok (dictUpdate c upd),
         .file (.valid (pre ++ dictUpdate c upd :: post))) :=
  update_customer_eq_of_match cid upd customers hids hex

/-- C10 witness: a store with two records of id "1" and one of id "2". -/
theorem C10_only_first_match_updated_witness :
    ∃ pre c post,
      [[("id", "1"), ("name", "A")], [("id", "1"), ("name", "B")],
       [("id", "2"), ("name", "C")]] = pre ++ c :: post ∧
      dictGet c "id" = some "1" ∧
      (∀ c' ∈ pre, dictGet c' "id" ≠ some "1") ∧
      update_customer "1" [("name", "Z")]
          (.file (.valid [[("id", "1"), ("name", "A")], [("id", "1"), ("name", "B")],
            [("id", "2"), ("name", "C")]])) =
        (.ok (dictUpdate c [("name", "Z")]),
         .file (.valid (pre ++ dictUpdate c [("name", "Z")] :: post))) :=
  C10_only_first_match_updated "1" [("name", "Z")] _ (by decide) (by decide)

/-- C1: the spec demands that Create of an id already present fail with
DuplicateIdError leaving exactly one record with that id, but `add_customer`
performs no duplicate check: creating a second record with the already-stored
id "1" succeeds and leaves two records with id "1" in the store. -/
theorem C1_duplicate_id_create_succeeds :
    countId (load_customers
      (add_customer ⟨"1", "Bea", "555-0101", "9 Ash St"⟩
        (.file (.valid [[("id", "1"), ("name", "Asha"), ("phone", "555-0100"),
          ("address", "12 Elm St")]]))).2) "1" = 2 := by decide

/-- C2: the spec demands write-temp-then-atomic-rename so the canonical file
is always the full pre- or post-mutation content, but `save_customers` opens
the canonical path with mode "w" (truncating in place) and then writes: the
intermediate durable state reached by a crash between truncation and the
completed dump is neither the pre-mutation nor the post-mutation content. -/
theorem C2_direct_overwrite_has_crash_window :
    ∃ s ∈ save_customers_steps
        [[("id", "1"), ("name", "Asha"), ("phone", "555-0100"),
          ("address", "12 Elm St")],
         [("id", "2"), ("name", "Bea"), ("phone", "555-0101"),
          ("address", "9 Ash St")]]
        (.file (.valid [[("id", "1"), ("name", "Asha"), ("phone", "555-0100"),
          ("address", "12 Elm St")]])),
      s ≠ .file (.valid [[("id", "1"), ("name", "Asha"), ("phone", "555-0100"),
          ("address", "12 Elm St")]]) ∧
      s ≠ .file (.valid [[("id", "1"), ("name", "Asha"), ("phone", "555-0100"),
          ("address", "12 Elm St")],
         [("id", "2"), ("name", "Bea"), ("phone", "555-0101"),
          ("address", "9 Ash St")]]) := by decide

/-- C3: the spec demands CorruptStoreError when the file exists but does not
parse, but the bare `except:` in `load_customers` silently turns malformed
content into the empty Collection — exactly the result reserved for a
missing file. -/
theorem C3_malformed_data_silently_discarded :
    load_customers (.file .malformed) = [] ∧
    load_customers .absent = [] := ⟨rfl, rfl⟩

/-- C4: the spec demands an exclusive lock making load-append-save atomic so
that two Creates with distinct ids always leave both records, but the code
takes no lock: in the unsynchronised interleaving where both calls load
before either saves, the final store holds only the second record — the
first write is lost (size 1, id "1" absent, instead of size 2). -/
theorem C4_concurrent_creates_lose_update :
    twoAddsLoadLoadSaveSave ⟨"1", "Asha", "555-0100", "12 Elm St"⟩
        ⟨"2", "Bea", "555-0101", "9 Ash St"⟩ .absent =
      .file (.valid [[("id", "2"), ("name", "Bea"), ("phone", "555-0101"),
        ("address", "9 Ash St")]]) ∧
    countId (load_customers
      (twoAddsLoadLoadSaveSave ⟨"1", "Asha", "555-0100", "12 Elm St"⟩
        ⟨"2", "Bea", "555-0101", "9 Ash St"⟩ .absent)) "1" = 0 := by
  exact ⟨rfl, by decide⟩

/-- C7: the spec demands that Create of a record whose id is the empty string
fail with InvalidRecordError without touching durable storage, but the
`Customer` model only requires `id` to be a string, so `add_customer`
accepts the empty id, appends the record and writes it to the store. -/
theorem C7_empty_id_create_succeeds :
    add_customer ⟨"", "Asha", "555-0100", "12 Elm St"⟩ .absent =
      ([("id", ""), ("name", "Asha"), ("phone", "555-0100"),
        ("address", "12 Elm St")],
       .file (.valid [[("id", ""), ("name", "Asha"), ("phone", "555-0100"),
         ("address", "12 Elm St")]])) := rfl

end AOSBilling
